import Mathlib

/-!
Verification of the task-management web application backend.

The development shallowly embeds the in-memory (fallback) data-access layer
and the route handlers of the repository:

* `backend/routes/tasks.js` : task store helpers (`findUserTasks`,
  `findTaskById`, `updateTask`, `deleteTask`) and the task routes,
  including pagination and the statistics summary;
* `backend/routes/auth.js` : user store helpers (`createUser`,
  `findUserByEmail`, `verifyPassword`), the register and login handlers,
  the validation schemas, the JWT helpers (`generateToken`) and the
  `authenticate` middleware, and the mongoose task schema pre-save hook;
* `backend/routes/users.js` : the profile update handler.

JavaScript `Date` values are modelled as natural-number timestamps,
identifiers as natural numbers, and the JS `Map` objects as association
lists.  The external `bcryptjs` and `jsonwebtoken` libraries are modelled
by their documented contracts.
-/

namespace TaskApp

/-- A task record as stored by the in-memory fallback of
`backend/routes/tasks.js` (and by the mongoose schema in
`backend/models/Task.js`).  Dates are naturals, `none` models
`null`/`undefined`. -/
structure Task where
  id : Nat
  user : Nat
  title : String
  description : String
  status : String
  priority : String
  category : String
  dueDate : Option Nat
  completedAt : Option Nat
  tags : List String
  createdAt : Nat
  updatedAt : Nat
deriving Repr, DecidableEq

/-- The model of `String.prototype.toLowerCase` (ASCII range): lower-case
every character. -/
def jsToLower (s : String) : String := String.mk (s.data.map Char.toLower)

/-- The model of `p.startsWith`-style prefix testing on strings. -/
def jsStartsWith (p s : String) : Bool := p.data.isPrefixOf s.data

/-- Case-insensitive substring test: the model of
`new RegExp(pat, "i").test(s)` for a pattern without regex
metacharacters, as used by the category and search filters. -/
def ciTest (pat s : String) : Bool :=
  let p := jsToLower pat
  let t := jsToLower s
  (List.range (t.length + 1)).any (fun i => jsStartsWith p (t.drop i))

/-- Insert a task into a list kept in descending `createdAt` order.
Together with `sortByCreatedDesc` this models
`tasks.sort((a, b) => new Date(b.createdAt) - new Date(a.createdAt))`. -/
def insertByCreatedDesc (x : Task) : List Task → List Task
  | [] => [x]
  | y :: ys =>
    if y.createdAt < x.createdAt then x :: y :: ys
    else y :: insertByCreatedDesc x ys

/-- Sort a task list newest-created-first, the model of the JS
`Array.prototype.sort` call with the descending `createdAt` comparator. -/
def sortByCreatedDesc (l : List Task) : List Task :=
  l.foldr insertByCreatedDesc []

/-- The filter object built by `GET /api/tasks` from the query string:
a field is `none` when the query parameter is absent (or falsy). -/
structure TaskFilter where
  status : Option String
  priority : Option String
  category : Option String
  search : Option String
deriving Repr, DecidableEq

/-- Conditional filter application: the model of
`if (filter.f) { tasks = tasks.filter(...) }`. -/
def optFilter {β : Type} (o : Option β) (p : β → Task → Bool) (l : List Task) : List Task :=
  match o with
  | none => l
  | some b => l.filter (p b)

/-- The in-memory branch of `findUserTasks` in `backend/routes/tasks.js`:
restrict to the owner, apply the four optional filters in order, then
sort by creation date newest first. -/
def findUserTasks (store : List Task) (userId : Nat) (f : TaskFilter) : List Task :=
  let tasks := store.filter (fun t => t.user == userId)
  let tasks := optFilter f.status (fun s t => t.status == s) tasks
  let tasks := optFilter f.priority (fun p t => t.priority == p) tasks
  let tasks := optFilter f.category (fun c t => ciTest c t.category) tasks
  let tasks := optFilter f.search
    (fun q t => ciTest q t.title || ciTest q t.description || t.tags.any (fun tag => ciTest q tag)) tasks
  sortByCreatedDesc tasks

/-- Lookup in the in-memory task map (`inMemoryTasks.get(id)`). -/
def getById (store : List Task) (taskId : Nat) : Option Task :=
  store.find? (fun t => t.id == taskId)

/-- The in-memory branch of `findTaskById` in `backend/routes/tasks.js`:
the task is returned only when it exists and its `user` field equals the
requesting user. -/
def findTaskById (store : List Task) (taskId userId : Nat) : Option Task :=
  match getById store taskId with
  | some t => if t.user == userId then some t else none
  | none => none

/-- A partial update as accepted by the `updateTaskSchema` validation:
every field optional; `dueDate` may be set to `null`
(`some none`).  `completedAt` is not in the schema, so a client can never
supply it. -/
structure TaskPatch where
  title : Option String
  description : Option String
  status : Option String
  priority : Option String
  category : Option String
  dueDate : Option (Option Nat)
  tags : Option (List String)
deriving Repr, DecidableEq

/-- The empty patch (a request body with no fields). -/
def emptyPatch : TaskPatch :=
  { title := none, description := none, status := none, priority := none,
    category := none, dueDate := none, tags := none }

/-- The model of `Object.assign(task, updateData)`: every field present
in the patch overwrites the stored one. -/
def objAssign (t : Task) (p : TaskPatch) : Task :=
  { t with
    title := p.title.getD t.title
    description := p.description.getD t.description
    status := p.status.getD t.status
    priority := p.priority.getD t.priority
    category := p.category.getD t.category
    dueDate := p.dueDate.getD t.dueDate
    tags := p.tags.getD t.tags }

/-- The in-memory branch of `updateTask` in `backend/routes/tasks.js`:
find the task, check ownership, `Object.assign` the patch plus a fresh
`updatedAt`, then run the completion logic, which branches on
`updateData.status` (the patch field, not the resulting status).
Returns the updated task (or `none`) together with the new store. -/
def updateTask (store : List Task) (taskId userId : Nat) (p : TaskPatch) (now : Nat) :
    Option Task × List Task :=
  match getById store taskId with
  | some t =>
    if t.user == userId then
      let t1 := { objAssign t p with updatedAt := now }
      let t2 :=
        if p.status == some "completed" && t1.completedAt == none then
          { t1 with completedAt := some now }
        else if p.status != some "completed" && t1.completedAt != none then
          { t1 with completedAt := none }
        else t1
      (some t2, store.map (fun u => if u.id == taskId then t2 else u))
    else (none, store)
  | none => (none, store)

/-- The in-memory branch of `deleteTask` in `backend/routes/tasks.js`. -/
def deleteTask (store : List Task) (taskId userId : Nat) :
    Option Task × List Task :=
  match getById store taskId with
  | some t =>
    if t.user == userId then (some t, store.filter (fun u => !(u.id == taskId)))
    else (none, store)
  | none => (none, store)

/-- The mongoose `taskSchema.pre("save")` hook in `backend/models/Task.js`:
refresh `updatedAt`, set `completedAt` when the task is completed and it
is unset, clear it when the task is not completed. -/
def preSave (t : Task) (now : Nat) : Task :=
  let t1 := { t with updatedAt := now }
  let t2 :=
    if t1.status == "completed" && t1.completedAt == none then
      { t1 with completedAt := some now }
    else t1
  if t2.status != "completed" && t2.completedAt != none then
    { t2 with completedAt := none }
  else t2

/-- An HTTP response of the task routes, reduced to the observable
fields: status code, success flag, message and the serialized task. -/
structure ApiRes where
  status : Nat
  success : Bool
  message : String
  task : Option Task
deriving Repr, DecidableEq

/-- The 404 response shared by `GET/PUT/DELETE /api/tasks/:id`. -/
def taskNotFoundRes : ApiRes :=
  { status := 404, success := false, message := "Task not found", task := none }

/-- The `GET /api/tasks/:id` handler over the in-memory store. -/
def getTaskRoute (store : List Task) (userId taskId : Nat) : ApiRes :=
  match findTaskById store taskId userId with
  | none => taskNotFoundRes
  | some t => { status := 200, success := true, message := "", task := some t }

/-- The `PUT /api/tasks/:id` handler over the in-memory store; returns
the response and the resulting store. -/
def putTaskRoute (store : List Task) (userId taskId : Nat) (p : TaskPatch) (now : Nat) :
    ApiRes × List Task :=
  match updateTask store taskId userId p now with
  | (none, st) => (taskNotFoundRes, st)
  | (some t, st) =>
    ({ status := 200, success := true, message := "Task updated successfully", task := some t }, st)

/-- The `DELETE /api/tasks/:id` handler over the in-memory store; returns
the response and the resulting store. -/
def deleteTaskRoute (store : List Task) (userId taskId : Nat) : ApiRes × List Task :=
  match deleteTask store taskId userId with
  | (none, st) => (taskNotFoundRes, st)
  | (some _, st) =>
    ({ status := 200, success := true, message := "Task deleted successfully", task := none }, st)

/-- A concrete completed task used to exhibit the completion-logic bug. -/
def bugTask : Task :=
  { id := 1, user := 7, title := "Report", description := "write it",
    status := "completed", priority := "medium", category := "General",
    dueDate := none, completedAt := some 50, tags := [], createdAt := 10,
    updatedAt := 50 }

/-- A patch that only renames the task and does not touch `status`. -/
def titleOnlyPatch : TaskPatch := { emptyPatch with title := some "Report v2" }

/-- C1: the mongoose pre-save hook does re-establish the invariant
(`completedAt` non-null iff `status == "completed"`) after every save,
but the in-memory branch of `updateTask` violates it: updating only the
title of a completed task clears `completedAt` while the status stays
`"completed"`, because the completion logic tests the patch field
`updateData.status` (which is `undefined`) instead of the task status. -/
theorem completedAt_invariant_code_bug :
    (∀ (t : Task) (now : Nat),
      ((preSave t now).completedAt ≠ none ↔ (preSave t now).status = "completed"))
    ∧ (∃ u : Task, (updateTask [bugTask] 1 7 titleOnlyPatch 60).1 = some u
        ∧ u.status = "completed" ∧ u.completedAt = none) := by
  constructor
  · intro t now
    by_cases hs : t.status = "completed"
    · cases hca : t.completedAt with
      | none => simp [preSave, hs, hca]
      | some d => simp [preSave, hs, hca]
    · cases hca : t.completedAt with
      | none => simp [preSave, hs, hca]
      | some d => simp [preSave, hs, hca]
  · exact ⟨_, rfl, rfl, rfl⟩

/-- C2: when a task exists but belongs to a different owner, the three
id-addressed task routes return exactly the 404 response they return for
an id that matches no task at all, and the store is unchanged; the
existence of the foreign task is not observable. -/
theorem cross_owner_indistinguishable (store : List Task) (userId taskId : Nat)
    (t : Task) (p : TaskPatch) (now : Nat)
    (hfind : getById store taskId = some t) (hown : t.user ≠ userId) :
    getTaskRoute store userId taskId = taskNotFoundRes
    ∧ putTaskRoute store userId taskId p now = (taskNotFoundRes, store)
    ∧ deleteTaskRoute store userId taskId = (taskNotFoundRes, store)
    ∧ (∀ taskId2, getById store taskId2 = none →
        getTaskRoute store userId taskId2 = taskNotFoundRes
        ∧ putTaskRoute store userId taskId2 p now = (taskNotFoundRes, store)
        ∧ deleteTaskRoute store userId taskId2 = (taskNotFoundRes, store)) := by
  have howned : (t.user == userId) = false := beq_eq_false_iff_ne.mpr hown
  refine ⟨?_, ?_, ?_, ?_⟩
  · simp [getTaskRoute, findTaskById, hfind, howned]
  · simp [putTaskRoute, updateTask, hfind, howned]
  · simp [deleteTaskRoute, deleteTask, hfind, howned]
  · intro taskId2 hnone
    refine ⟨?_, ?_, ?_⟩
    · simp [getTaskRoute, findTaskById, hnone]
    · simp [putTaskRoute, updateTask, hnone]
    · simp [deleteTaskRoute, deleteTask, hnone]

/-- A second user and a store containing only a task of user 7, used to
instantiate the cross-owner theorem. -/
def witnessStore : List Task := [bugTask]

/-- C2 witness: user 9 requesting task 1 (owned by user 7) gets the same
404 as for the absent id 2. -/
theorem cross_owner_indistinguishable_witness :
    getTaskRoute witnessStore 9 1 = taskNotFoundRes
    ∧ putTaskRoute witnessStore 9 1 emptyPatch 60 = (taskNotFoundRes, witnessStore)
    ∧ deleteTaskRoute witnessStore 9 1 = (taskNotFoundRes, witnessStore)
    ∧ (∀ taskId2, getById witnessStore taskId2 = none →
        getTaskRoute witnessStore 9 taskId2 = taskNotFoundRes
        ∧ putTaskRoute witnessStore 9 taskId2 emptyPatch 60 = (taskNotFoundRes, witnessStore)
        ∧ deleteTaskRoute witnessStore 9 taskId2 = (taskNotFoundRes, witnessStore)) :=
  cross_owner_indistinguishable witnessStore 9 1 bugTask emptyPatch 60 rfl (by decide)

/-- Descending order on creation time: the left task was created no
earlier than the right one. -/
def createdGe (a b : Task) : Prop := b.createdAt ≤ a.createdAt

theorem insertByCreatedDesc_perm (x : Task) (l : List Task) :
    List.Perm (insertByCreatedDesc x l) (x :: l) := by
  induction l with
  | nil => rfl
  | cons y ys ih =>
    simp only [insertByCreatedDesc]
    by_cases h : y.createdAt < x.createdAt
    · simp [h]
    · simp only [h, if_false]
      exact (ih.cons y).trans (List.Perm.swap x y ys)

theorem sortByCreatedDesc_perm (l : List Task) : List.Perm (sortByCreatedDesc l) l := by
  induction l with
  | nil => rfl
  | cons x xs ih => exact (insertByCreatedDesc_perm x (sortByCreatedDesc xs)).trans (ih.cons x)

theorem mem_sortByCreatedDesc {t : Task} {l : List Task} :
    t ∈ sortByCreatedDesc l ↔ t ∈ l :=
  (sortByCreatedDesc_perm l).mem_iff

theorem pairwise_insertByCreatedDesc (x : Task) (l : List Task)
    (h : l.Pairwise createdGe) : (insertByCreatedDesc x l).Pairwise createdGe := by
  induction l with
  | nil => simp [insertByCreatedDesc]
  | cons y ys ih =>
    rcases List.pairwise_cons.mp h with ⟨hy, hys⟩
    simp only [insertByCreatedDesc]
    by_cases hlt : y.createdAt < x.createdAt
    · simp only [hlt, if_true]
      refine List.pairwise_cons.mpr ⟨?_, h⟩
      intro z hz
      rcases List.mem_cons.mp hz with rfl | hz'
      · exact hlt.le
      · exact (hy z hz').trans hlt.le
    · simp only [hlt, if_false]
      refine List.pairwise_cons.mpr ⟨?_, ih hys⟩
      intro z hz
      rcases List.mem_cons.mp ((insertByCreatedDesc_perm x ys).mem_iff.mp hz) with rfl | hz'
      · exact Nat.le_of_not_lt hlt
      · exact hy z hz'

theorem sorted_sortByCreatedDesc (l : List Task) :
    (sortByCreatedDesc l).Pairwise createdGe := by
  induction l with
  | nil => simp [sortByCreatedDesc]
  | cons x xs ih => exact pairwise_insertByCreatedDesc x _ ih

theorem mem_optFilter {β : Type} {o : Option β} {p : β → Task → Bool}
    {l : List Task} {t : Task} :
    t ∈ optFilter o p l ↔ t ∈ l ∧ ∀ b, o = some b → p b t = true := by
  cases o with
  | none => simp [optFilter]
  | some b => simp [optFilter, List.mem_filter]

/-- C8: `findUserTasks` returns exactly the tasks of the owner that pass
the four filters — exact status, exact priority, case-insensitive
substring category, case-insensitive substring search over title,
description and tags — and the result is in descending creation order. -/
theorem listForOwner_filters_and_sorts (store : List Task) (userId : Nat) (f : TaskFilter) :
    (∀ t : Task, t ∈ findUserTasks store userId f ↔
      (t ∈ store ∧ t.user = userId
        ∧ (∀ s, f.status = some s → t.status = s)
        ∧ (∀ p, f.priority = some p → t.priority = p)
        ∧ (∀ c, f.category = some c → ciTest c t.category = true)
        ∧ (∀ q, f.search = some q →
            (ciTest q t.title = true ∨ ciTest q t.description = true
              ∨ ∃ tag ∈ t.tags, ciTest q tag = true))))
    ∧ (findUserTasks store userId f).Pairwise createdGe := by
  constructor
  · intro t
    simp only [findUserTasks, mem_sortByCreatedDesc, mem_optFilter, List.mem_filter,
      beq_iff_eq, Bool.or_eq_true, List.any_eq_true, and_assoc, or_assoc]
  · unfold findUserTasks
    exact sorted_sortByCreatedDesc _

/-- A small store used to instantiate the listing and pagination
theorems: two pending tasks and one completed task of user 7, plus one
task of user 8. -/
def demoStore : List Task :=
  [ { bugTask with id := 1, user := 7, status := "pending", createdAt := 30 },
    { bugTask with id := 2, user := 7, status := "completed", createdAt := 20 },
    { bugTask with id := 3, user := 7, status := "pending", createdAt := 40 },
    { bugTask with id := 4, user := 8, status := "pending", createdAt := 50 } ]

/-- The filter `status=pending` with everything else absent. -/
def pendingFilter : TaskFilter :=
  { status := some "pending", priority := none, category := none, search := none }

/-- C8 witness: the theorem instantiated at the demo store for user 7
with the `status=pending` filter. -/
theorem listForOwner_filters_and_sorts_witness :
    (∀ t : Task, t ∈ findUserTasks demoStore 7 pendingFilter ↔
      (t ∈ demoStore ∧ t.user = 7
        ∧ (∀ s, pendingFilter.status = some s → t.status = s)
        ∧ (∀ p, pendingFilter.priority = some p → t.priority = p)
        ∧ (∀ c, pendingFilter.category = some c → ciTest c t.category = true)
        ∧ (∀ q, pendingFilter.search = some q →
            (ciTest q t.title = true ∨ ciTest q t.description = true
              ∨ ∃ tag ∈ t.tags, ciTest q tag = true))))
    ∧ (findUserTasks demoStore 7 pendingFilter).Pairwise createdGe :=
  listForOwner_filters_and_sorts demoStore 7 pendingFilter

/-- The pagination object of the task-list response. -/
structure Pagination where
  current : Nat
  total : Nat
  count : Nat
  totalTasks : Nat
deriving Repr, DecidableEq

/-- The model of `Array.prototype.slice(s, e)` on natural indices. -/
def jsSlice {α : Type} (l : List α) (s e : Nat) : List α := (l.take e).drop s

/-- The model of `Math.ceil(n / limit)` for naturals (positive limit),
expressed in integer arithmetic. -/
def jsCeilOfDiv (n limit : Nat) : Nat := (n + limit - 1) / limit

/-- The `GET /api/tasks` handler over the in-memory store: list, filter
and sort via `findUserTasks`, then slice `[(page-1)*limit, page*limit)`
and report the pagination object. -/
def getTasksRoute (store : List Task) (userId : Nat) (f : TaskFilter)
    (page limit : Nat) : List Task × Pagination :=
  let tasks := findUserTasks store userId f
  let startIndex := (page - 1) * limit
  let endIndex := page * limit
  let paginatedTasks := jsSlice tasks startIndex endIndex
  (paginatedTasks,
    { current := page
      total := jsCeilOfDiv tasks.length limit
      count := paginatedTasks.length
      totalTasks := tasks.length })

theorem natDiv_eq_ceil (n l : Nat) (hl : 0 < l) :
    ((n + l - 1) / l : ℕ) = ⌈(n : ℚ) / l⌉₊ := by
  have key : ∀ k : ℕ, ⌈(n : ℚ) / l⌉₊ ≤ k ↔ (n + l - 1) / l ≤ k := by
    intro k
    rw [Nat.ceil_le, div_le_iff₀ (by exact_mod_cast hl), Nat.div_le_iff_le_mul_add_pred hl]
    constructor
    · intro h
      have h2 : n ≤ k * l := by exact_mod_cast h
      have h3 : n ≤ l * k := by rw [mul_comm]; exact h2
      omega
    · intro h
      have h2 : n ≤ l * k := by omega
      have h3 : n ≤ k * l := by rw [mul_comm] at h2; exact h2
      exact_mod_cast h3
  exact le_antisymm ((key _).mp le_rfl) ((key _).mpr le_rfl)

/-- C9: pagination is applied after filtering: the returned page is the
slice of the filtered, sorted list from `(page-1)*limit` (inclusive) to
`page*limit` (exclusive), and the pagination object reports the current
page, the ceiling of matching-count over limit, the on-page count and
the total matching count. -/
theorem pagination_spec (store : List Task) (userId : Nat) (f : TaskFilter)
    (page limit : Nat) (hp : 1 ≤ page) (hl : 1 ≤ limit) :
    (getTasksRoute store userId f page limit).1
        = ((findUserTasks store userId f).drop ((page - 1) * limit)).take limit
    ∧ (getTasksRoute store userId f page limit).2.current = page
    ∧ (getTasksRoute store userId f page limit).2.total
        = ⌈((findUserTasks store userId f).length : ℚ) / limit⌉₊
    ∧ (getTasksRoute store userId f page limit).2.count
        = (getTasksRoute store userId f page limit).1.length
    ∧ (getTasksRoute store userId f page limit).2.totalTasks
        = (findUserTasks store userId f).length := by
  obtain ⟨q, rfl⟩ : ∃ q, page = q + 1 := ⟨page - 1, by omega⟩
  refine ⟨?_, rfl, ?_, rfl, rfl⟩
  · show jsSlice (findUserTasks store userId f) ((q + 1 - 1) * limit) ((q + 1) * limit) = _
    rw [jsSlice, List.drop_take]
    have harith : (q + 1) * limit - (q + 1 - 1) * limit = limit := by
      simp only [Nat.add_sub_cancel, add_mul, one_mul]
      omega
    rw [harith]
  · exact natDiv_eq_ceil _ _ hl

/-- C9 witness: the pagination theorem instantiated at the demo store,
page 2 and limit 2. -/
theorem pagination_spec_witness :
    (getTasksRoute demoStore 7 pendingFilter 2 2).1
        = ((findUserTasks demoStore 7 pendingFilter).drop ((2 - 1) * 2)).take 2
    ∧ (getTasksRoute demoStore 7 pendingFilter 2 2).2.current = 2
    ∧ (getTasksRoute demoStore 7 pendingFilter 2 2).2.total
        = ⌈((findUserTasks demoStore 7 pendingFilter).length : ℚ) / 2⌉₊
    ∧ (getTasksRoute demoStore 7 pendingFilter 2 2).2.count
        = (getTasksRoute demoStore 7 pendingFilter 2 2).1.length
    ∧ (getTasksRoute demoStore 7 pendingFilter 2 2).2.totalTasks
        = (findUserTasks demoStore 7 pendingFilter).length :=
  pagination_spec demoStore 7 pendingFilter 2 2 (by decide) (by decide)

/-- The statistics object of `GET /api/tasks/stats/summary`.
`completionRate` is `Math.round((completed / total) * 100)`: the
round-half-up of the exact rational, written in integer arithmetic. -/
structure TaskStats where
  total : Nat
  completed : Nat
  inProgress : Nat
  pending : Nat
  highPriority : Nat
  overdue : Nat
  completionRate : Nat
deriving Repr, DecidableEq

/-- The statistics computation of the `GET /api/tasks/stats/summary`
handler, over the list of all tasks of the user. -/
def statsSummary (tasks : List Task) (now : Nat) : TaskStats :=
  let total := tasks.length
  let completed := (tasks.filter (fun t => t.status == "completed")).length
  { total := total
    completed := completed
    inProgress := (tasks.filter (fun t => t.status == "in-progress")).length
    pending := (tasks.filter (fun t => t.status == "pending")).length
    highPriority := (tasks.filter (fun t => t.priority == "high")).length
    overdue := (tasks.filter (fun t =>
        (match t.dueDate with | some d => decide (d < now) | none => false)
          && t.status != "completed")).length
    completionRate := if 0 < total then (200 * completed + total) / (2 * total) else 0 }

/-- The `GET /api/tasks/stats/summary` handler: statistics over
`findUserTasks` with the empty filter. -/
def statsRoute (store : List Task) (userId : Nat) (now : Nat) : TaskStats :=
  statsSummary (findUserTasks store userId
    { status := none, priority := none, category := none, search := none }) now

theorem status_partition (tasks : List Task)
    (hws : ∀ t ∈ tasks,
      t.status = "pending" ∨ t.status = "in-progress" ∨ t.status = "completed") :
    (tasks.filter (fun t => t.status == "completed")).length
      + (tasks.filter (fun t => t.status == "in-progress")).length
      + (tasks.filter (fun t => t.status == "pending")).length = tasks.length := by
  induction tasks with
  | nil => simp
  | cons t ts ih =>
    have ht := hws t (List.mem_cons_self t ts)
    have ih' := ih (fun u hu => hws u (List.mem_cons_of_mem t hu))
    rcases ht with h | h | h <;> simp [List.filter_cons, h] <;> omega

theorem natDiv_eq_round (c t : Nat) (ht : 0 < t) :
    (((200 * c + t) / (2 * t) : ℕ) : ℤ) = round ((100 * c : ℚ) / t) := by
  rw [round_eq]
  have h1 : (100 * c : ℚ) / t + 1 / 2 = ((200 * c + t : ℕ) : ℚ) / ((2 * t : ℕ) : ℚ) := by
    have ht' : (t : ℚ) ≠ 0 := by exact_mod_cast ht.ne'
    push_cast
    field_simp
    ring
  rw [h1, Rat.floor_natCast_div_natCast, Int.ofNat_ediv]

/-- C7: for tasks whose statuses lie in the documented enumeration, the
summary statistics partition the total by status, `overdue` counts
exactly the tasks with a due date in the past and a status other than
completed, and the completion rate is the rounded percentage
`round(100 * completed / total)`, taken as 0 when there are no tasks. -/
theorem stats_summary_spec (tasks : List Task) (now : Nat)
    (hws : ∀ t ∈ tasks,
      t.status = "pending" ∨ t.status = "in-progress" ∨ t.status = "completed") :
    (statsSummary tasks now).completed + (statsSummary tasks now).inProgress
        + (statsSummary tasks now).pending = (statsSummary tasks now).total
    ∧ (statsSummary tasks now).overdue
        = (tasks.filter (fun t =>
            t.dueDate.any (fun d => decide (d < now)) && !(t.status == "completed"))).length
    ∧ ((statsSummary tasks now).total = 0 → (statsSummary tasks now).completionRate = 0)
    ∧ (0 < (statsSummary tasks now).total →
        ((statsSummary tasks now).completionRate : ℤ)
          = round ((100 * (statsSummary tasks now).completed : ℚ)
              / (statsSummary tasks now).total)) := by
  refine ⟨status_partition tasks hws, ?_, ?_, ?_⟩
  · simp only [statsSummary]
    refine congrArg List.length (List.filter_congr ?_)
    intro t _
    cases hd : t.dueDate <;> simp [hd, bne]
  · intro h0
    simp only [statsSummary] at h0 ⊢
    simp [h0]
  · intro hpos
    simp only [statsSummary] at hpos ⊢
    rw [if_pos hpos]
    exact natDiv_eq_round _ _ hpos

/-- C7 witness: the statistics theorem instantiated at the tasks of user
7 in the demo store at time 100. -/
theorem stats_summary_spec_witness :
    (statsSummary (demoStore.filter (fun t => t.user == 7)) 100).completed
        + (statsSummary (demoStore.filter (fun t => t.user == 7)) 100).inProgress
        + (statsSummary (demoStore.filter (fun t => t.user == 7)) 100).pending
        = (statsSummary (demoStore.filter (fun t => t.user == 7)) 100).total
    ∧ (statsSummary (demoStore.filter (fun t => t.user == 7)) 100).overdue
        = ((demoStore.filter (fun t => t.user == 7)).filter (fun t =>
            t.dueDate.any (fun d => decide (d < 100)) && !(t.status == "completed"))).length
    ∧ ((statsSummary (demoStore.filter (fun t => t.user == 7)) 100).total = 0 →
        (statsSummary (demoStore.filter (fun t => t.user == 7)) 100).completionRate = 0)
    ∧ (0 < (statsSummary (demoStore.filter (fun t => t.user == 7)) 100).total →
        ((statsSummary (demoStore.filter (fun t => t.user == 7)) 100).completionRate : ℤ)
          = round ((100 * (statsSummary (demoStore.filter (fun t => t.user == 7)) 100).completed : ℚ)
              / (statsSummary (demoStore.filter (fun t => t.user == 7)) 100).total)) :=
  stats_summary_spec (demoStore.filter (fun t => t.user == 7)) 100 (by decide)

/-- A user record as stored by the in-memory fallback of
`backend/routes/auth.js`.  `password` holds the bcrypt hash. -/
structure User where
  id : Nat
  name : String
  email : String
  password : String
  role : String
  isActive : Bool
  createdAt : Nat
  updatedAt : Nat
  lastLogin : Option Nat
  avatar : Option String
deriving Repr, DecidableEq

/-- Model of the bcryptjs contract (cost factor 12): hashing is a fixed
injective function in the model. -/
def bcryptHash (pw : String) : String := "bcrypt.12." ++ pw

/-- Model of `bcrypt.compare`: comparison recomputes the hash. -/
def bcryptCompare (pw hashed : String) : Bool := bcryptHash pw == hashed

/-- A signed JWT, modelled structurally: payload (the user id), issue
and expiry times in seconds, and the signature value. -/
structure Token where
  payload : Nat
  iat : Nat
  exp : Nat
  sig : Nat
deriving Repr, DecidableEq

/-- Outcome of `jwt.verify`: the decoded user id, or the
`TokenExpiredError` / `JsonWebTokenError` failure. -/
inductive VerifyOutcome where
  | ok (userId : Nat)
  | expired
  | invalid
deriving Repr, DecidableEq

/-- The fixed server secret (`JWT_SECRET`), an opaque value in the model. -/
def jwtSecret : Nat := 0

/-- Model of the HMAC signature over the token header and payload. -/
def signatureOf (secret payload exp : Nat) : Nat :=
  Nat.pair secret (Nat.pair payload exp)

/-- Model of `jwt.sign` from the documented jsonwebtoken contract. -/
def jwtSign (secret payload now expiresIn : Nat) : Token :=
  { payload := payload, iat := now, exp := now + expiresIn,
    sig := signatureOf secret payload (now + expiresIn) }

/-- Model of `jwt.verify` from the documented jsonwebtoken contract:
a bad signature (covering any payload corruption) fails with
`JsonWebTokenError`, a token at or past its expiry fails with
`TokenExpiredError`, otherwise the payload is returned. -/
def jwtVerify (secret now : Nat) (t : Token) : VerifyOutcome :=
  if t.sig != signatureOf secret t.payload t.exp then .invalid
  else if t.exp ≤ now then .expired
  else .ok t.payload

/-- The default token lifetime, `JWT_EXPIRE || "24h"`, in seconds. -/
def jwtExpireSeconds : Nat := 24 * 60 * 60

/-- `generateToken` in `backend/middleware/auth.js`: sign `{ id }` with
the server secret and the default 24h expiry. -/
def generateToken (userId now : Nat) : Token :=
  jwtSign jwtSecret userId now jwtExpireSeconds

/-- C6: a token issued for a user verifies to the same user id at any
time before its expiry, fails with the expired error from the expiry
on, fails with the invalid error on payload or signature corruption,
and verification has no outcome beyond these three. -/
theorem token_lifecycle (userId t t2 : Nat) :
    (t2 < t + jwtExpireSeconds →
      jwtVerify jwtSecret t2 (generateToken userId t) = .ok userId)
    ∧ (t + jwtExpireSeconds ≤ t2 →
      jwtVerify jwtSecret t2 (generateToken userId t) = .expired)
    ∧ (∀ p2, p2 ≠ userId →
      jwtVerify jwtSecret t2 { generateToken userId t with payload := p2 } = .invalid)
    ∧ (∀ tok : Token, tok.sig ≠ signatureOf jwtSecret tok.payload tok.exp →
      jwtVerify jwtSecret t2 tok = .invalid)
    ∧ (∀ tok : Token,
      jwtVerify jwtSecret t2 tok = .ok tok.payload ∨ jwtVerify jwtSecret t2 tok = .expired
        ∨ jwtVerify jwtSecret t2 tok = .invalid) := by
  refine ⟨?_, ?_, ?_, ?_, ?_⟩
  · intro hlt
    simp [jwtVerify, generateToken, jwtSign, Nat.not_le.mpr hlt]
  · intro hle
    simp [jwtVerify, generateToken, jwtSign, hle]
  · intro p2 hne
    have hsig : signatureOf jwtSecret userId (t + jwtExpireSeconds)
        ≠ signatureOf jwtSecret p2 (t + jwtExpireSeconds) := by
      intro h
      exact hne (((Nat.pair_eq_pair.mp (Nat.pair_eq_pair.mp h).2).1).symm)
    simp [jwtVerify, generateToken, jwtSign, hsig]
  · intro tok hsig
    simp [jwtVerify, hsig]
  · intro tok
    by_cases hsig : tok.sig = signatureOf jwtSecret tok.payload tok.exp
    · by_cases hexp : tok.exp ≤ t2
      · right; left; simp [jwtVerify, hsig, hexp]
      · left; simp [jwtVerify, hsig, hexp]
    · right; right; simp [jwtVerify, hsig]

/-- C6 witness: a token issued at time 0 for user 5 verifies to 5 at
time 100, is expired at time 86400, and a tampered payload is invalid. -/
theorem token_lifecycle_witness :
    jwtVerify jwtSecret 100 (generateToken 5 0) = .ok 5
    ∧ jwtVerify jwtSecret 86400 (generateToken 5 0) = .expired
    ∧ jwtVerify jwtSecret 100 { generateToken 5 0 with payload := 6 } = .invalid :=
  ⟨(token_lifecycle 5 0 100).1 (by decide),
   (token_lifecycle 5 0 86400).2.1 (by decide),
   (token_lifecycle 5 0 100).2.2.1 6 (by decide)⟩

/-- Outcome of the `authenticate` middleware: an error response, or the
request continues with the attached `{ id, email, name, role }`. -/
inductive AuthOutcome where
  | reject (status : Nat) (message : String)
  | proceed (id : Nat) (email name role : String)
deriving Repr, DecidableEq

/-- `User.findById` over the credential store. -/
def findById (users : List User) (userId : Nat) : Option User :=
  users.find? (fun u => u.id == userId)

/-- The `authenticate` middleware of `backend/middleware/auth.js`.
`header` is the `Authorization` header, `verify` the model of
`jwt.verify` on the extracted token string, `users` the credential
store. -/
def authenticate (header : Option String) (verify : String → VerifyOutcome)
    (users : List User) : AuthOutcome :=
  match header with
  | none => .reject 401 "Access denied. No token provided."
  | some h =>
    if jsStartsWith "Bearer " h then
      let token := h.drop 7
      if token == "" then .reject 401 "Access denied. Invalid token format."
      else
        match verify token with
        | .invalid => .reject 401 "Invalid token."
        | .expired => .reject 401 "Token expired."
        | .ok userId =>
          match findById users userId with
          | none => .reject 401 "User not found or inactive."
          | some u =>
            if u.isActive then .proceed u.id u.email u.name u.role
            else .reject 401 "User not found or inactive."
    else .reject 401 "Access denied. No token provided."

/-- C5: the middleware rejects with 401 when the header is absent or not
of the Bearer form, when verification fails, and when the decoded user
is absent or inactive; on success it attaches exactly the id, email,
name and role of the stored user; and a request only ever proceeds when
every one of those checks passed. -/
theorem authenticate_spec (header : Option String) (verify : String → VerifyOutcome)
    (users : List User) :
    (header = none →
      authenticate header verify users = .reject 401 "Access denied. No token provided.")
    ∧ (∀ h, header = some h → jsStartsWith "Bearer " h = false →
      authenticate header verify users = .reject 401 "Access denied. No token provided.")
    ∧ (∀ h, header = some h → jsStartsWith "Bearer " h = true → h.drop 7 = "" →
      authenticate header verify users = .reject 401 "Access denied. Invalid token format.")
    ∧ (∀ h, header = some h → jsStartsWith "Bearer " h = true → h.drop 7 ≠ "" →
      verify (h.drop 7) = .invalid →
      authenticate header verify users = .reject 401 "Invalid token.")
    ∧ (∀ h, header = some h → jsStartsWith "Bearer " h = true → h.drop 7 ≠ "" →
      verify (h.drop 7) = .expired →
      authenticate header verify users = .reject 401 "Token expired.")
    ∧ (∀ h userId, header = some h → jsStartsWith "Bearer " h = true → h.drop 7 ≠ "" →
      verify (h.drop 7) = .ok userId → findById users userId = none →
      authenticate header verify users = .reject 401 "User not found or inactive.")
    ∧ (∀ h userId u, header = some h → jsStartsWith "Bearer " h = true → h.drop 7 ≠ "" →
      verify (h.drop 7) = .ok userId → findById users userId = some u → u.isActive = false →
      authenticate header verify users = .reject 401 "User not found or inactive.")
    ∧ (∀ h userId u, header = some h → jsStartsWith "Bearer " h = true → h.drop 7 ≠ "" →
      verify (h.drop 7) = .ok userId → findById users userId = some u → u.isActive = true →
      authenticate header verify users = .proceed u.id u.email u.name u.role)
    ∧ (∀ i e n r, authenticate header verify users = .proceed i e n r →
      ∃ h u, header = some h ∧ jsStartsWith "Bearer " h = true ∧ h.drop 7 ≠ ""
        ∧ verify (h.drop 7) = .ok u.id ∧ findById users u.id = some u ∧ u.isActive = true
        ∧ i = u.id ∧ e = u.email ∧ n = u.name ∧ r = u.role) := by
  refine ⟨?_, ?_, ?_, ?_, ?_, ?_, ?_, ?_, ?_⟩
  · intro h0; simp [authenticate, h0]
  · intro h hh hpre; simp [authenticate, hh, hpre]
  · intro h hh hpre htok; simp [authenticate, hh, hpre, htok]
  · intro h hh hpre htok hv; simp [authenticate, hh, hpre, htok, hv]
  · intro h hh hpre htok hv; simp [authenticate, hh, hpre, htok, hv]
  · intro h userId hh hpre htok hv hf; simp [authenticate, hh, hpre, htok, hv, hf]
  · intro h userId u hh hpre htok hv hf hact; simp [authenticate, hh, hpre, htok, hv, hf, hact]
  · intro h userId u hh hpre htok hv hf hact; simp [authenticate, hh, hpre, htok, hv, hf, hact]
  · intro i e n r hp
    cases header with
    | none => simp [authenticate] at hp
    | some h =>
      by_cases hpre : jsStartsWith "Bearer " h = true
      · by_cases htok : h.drop 7 = ""
        · simp [authenticate, hpre, htok] at hp
        · cases hv : verify (h.drop 7) with
          | invalid => simp [authenticate, hpre, htok, hv] at hp
          | expired => simp [authenticate, hpre, htok, hv] at hp
          | ok userId =>
            cases hf : findById users userId with
            | none => simp [authenticate, hpre, htok, hv, hf] at hp
            | some u =>
              by_cases hact : u.isActive
              · have hid : u.id = userId := by
                  have := List.find?_some hf
                  exact eq_of_beq this
                refine ⟨h, u, rfl, hpre, htok, ?_, ?_, hact, ?_⟩
                · rw [hid]; exact hv
                · rw [hid]; exact hf
                · simp [authenticate, hpre, htok, hv, hf, hact] at hp
                  exact ⟨hp.1.symm, hp.2.1.symm, hp.2.2.1.symm, hp.2.2.2.symm⟩
              · simp [authenticate, hpre, htok, hv, hf, hact] at hp
      · simp [authenticate, hpre] at hp

/-- A registered, active user used in concrete instantiations. -/
def aliceUser : User :=
  { id := 5, name := "Alice", email := "alice@x.com",
    password := bcryptHash "abc123", role := "user", isActive := true,
    createdAt := 0, updatedAt := 0, lastLogin := none, avatar := none }

/-- C5 witness: a request with a valid Bearer token for the stored
active user 5 proceeds with exactly that user id, email, name and role, and a
request without a header is rejected 401. -/
theorem authenticate_spec_witness :
    authenticate (some "Bearer tok")
        (fun s => if s == "tok" then .ok 5 else .invalid) [aliceUser]
      = .proceed 5 "alice@x.com" "Alice" "user"
    ∧ authenticate none (fun s => if s == "tok" then .ok 5 else .invalid) [aliceUser]
      = .reject 401 "Access denied. No token provided." :=
  ⟨(authenticate_spec (some "Bearer tok") _ [aliceUser]).2.2.2.2.2.2.2.1
      "Bearer tok" 5 aliceUser rfl (by decide) (by decide) (by decide) (by decide) rfl,
   (authenticate_spec none _ [aliceUser]).1 rfl⟩

/-- The in-memory user store of `backend/routes/auth.js`: the
`inMemoryUsers` map keyed by lower-cased email, plus `userCounter`. -/
structure AuthState where
  users : List (String × User)
  counter : Nat
deriving Repr, DecidableEq

/-- The model of `Map.prototype.set` on the user map. -/
def mapSet (m : List (String × User)) (k : String) (v : User) : List (String × User) :=
  if m.any (fun kv => kv.1 == k) then
    m.map (fun kv => if kv.1 == k then (k, v) else kv)
  else m ++ [(k, v)]

/-- The in-memory branch of `findUserByEmail` in `backend/routes/auth.js`:
`inMemoryUsers.get(email.toLowerCase())`. -/
def findUserByEmail (users : List (String × User)) (email : String) : Option User :=
  users.lookup (jsToLower email)

/-- The in-memory branch of `verifyPassword` in `backend/routes/auth.js`:
`bcrypt.compare(inputPassword, hashedPassword)`. -/
def verifyPassword (inputPassword hashedPassword : String) : Bool :=
  bcryptCompare inputPassword hashedPassword

/-- A serialized JSON value of a user response object. -/
inductive JsVal where
  | str (s : String)
  | num (n : Nat)
  | boolean (b : Bool)
deriving Repr, DecidableEq

/-- The enumerable own fields of an in-memory user object, in insertion
order: the object literal of `createUser`, plus `lastLogin` and
`avatar` when they have been assigned later. -/
def userObjFields (u : User) : List (String × JsVal) :=
  [("_id", .num u.id), ("name", .str u.name), ("email", .str u.email),
   ("password", .str u.password), ("role", .str u.role),
   ("isActive", .boolean u.isActive), ("createdAt", .num u.createdAt),
   ("updatedAt", .num u.updatedAt)]
  ++ (match u.lastLogin with | some d => [("lastLogin", JsVal.num d)] | none => [])
  ++ (match u.avatar with | some a => [("avatar", JsVal.str a)] | none => [])

/-- Rest-destructuring that drops the password field, the model of
`const { password, ...publicProfile } = user`. -/
def omitPassword (fields : List (String × JsVal)) : List (String × JsVal) :=
  fields.filter (fun kv => kv.1 != "password")

/-- Outcome of `POST /api/auth/register`: the duplicate-email 400
response, or 201 with the serialized public user and a token. -/
inductive RegisterResult where
  | duplicate
  | created (user : List (String × JsVal)) (token : Token)
deriving Repr, DecidableEq

/-- The in-memory path of `POST /api/auth/register`: reject when
`findUserByEmail` already resolves, otherwise store the new user (hashed
password, lower-cased email key) and answer with the password-free
profile and a fresh token. -/
def register (st : AuthState) (name email password : String) (now : Nat) :
    RegisterResult × AuthState :=
  match findUserByEmail st.users email with
  | some _ => (.duplicate, st)
  | none =>
    let u : User :=
      { id := st.counter, name := name, email := jsToLower email,
        password := bcryptHash password, role := "user", isActive := true,
        createdAt := now, updatedAt := now, lastLogin := none, avatar := none }
    (.created (omitPassword (userObjFields u)) (generateToken u.id now),
      { users := mapSet st.users u.email u, counter := st.counter + 1 })

/-- Outcome of `POST /api/auth/login`: 401 for unknown email or wrong
password, 401 for a deactivated account, or 200 with the password-free
user and a token. -/
inductive LoginResult where
  | invalidCredentials
  | deactivated
  | success (user : List (String × JsVal)) (token : Token)
deriving Repr, DecidableEq

/-- The in-memory path of `POST /api/auth/login`: find by email, check
the active flag, compare the password, record `lastLogin`, and answer
with the password-free user and a fresh token. -/
def login (st : AuthState) (email password : String) (now : Nat) :
    LoginResult × AuthState :=
  match findUserByEmail st.users email with
  | none => (.invalidCredentials, st)
  | some u =>
    if !u.isActive then (.deactivated, st)
    else if verifyPassword password u.password then
      let u2 := { u with lastLogin := some now }
      (.success (omitPassword (userObjFields u2)) (generateToken u.id now),
        { st with users := mapSet st.users (jsToLower email) u2 })
    else (.invalidCredentials, st)

theorem omitPassword_no_password (fields : List (String × JsVal)) :
    ∀ kv ∈ omitPassword fields, kv.1 ≠ "password" := by
  intro kv hkv
  have h := (List.mem_filter.mp hkv).2
  simpa using h

theorem any_key_false_of_lookup_none {m : List (String × User)} {k : String}
    (h : List.lookup k m = none) : m.any (fun kv => kv.1 == k) = false := by
  induction m with
  | nil => rfl
  | cons kv rest ih =>
    cases kv with
    | mk k1 v1 =>
      rw [List.lookup_cons] at h
      cases hkk : (k == k1) with
      | true =>
        rw [hkk] at h
        exact absurd h (by simp)
      | false =>
        rw [hkk] at h
        have hkk2 : (k1 == k) = false := by
          rw [beq_eq_false_iff_ne] at hkk ⊢
          exact fun he => hkk he.symm
        simp only [List.any_cons, hkk2, Bool.false_or]
        exact ih h

theorem lookup_mapSet_fresh {m : List (String × User)} {k : String} {v : User}
    (h : List.lookup k m = none) : List.lookup k (mapSet m k v) = some v := by
  rw [mapSet, if_neg (by simp [any_key_false_of_lookup_none h])]
  rw [List.lookup_append, h]
  simp [List.lookup]

/-- C3: registering with a fresh email returns a serialized user with no
password field, and logging in with the same email and password right
after succeeds, again with a password-free serialized user. -/
theorem register_then_login (st : AuthState) (name email password : String)
    (now now2 : Nat) (hfree : findUserByEmail st.users email = none) :
    (∃ fields tok, (register st name email password now).1 = .created fields tok
      ∧ ∀ kv ∈ fields, kv.1 ≠ "password")
    ∧ (∃ fields2 tok2,
        (login (register st name email password now).2 email password now2).1
          = .success fields2 tok2
      ∧ ∀ kv ∈ fields2, kv.1 ≠ "password") := by
  constructor
  · have hcreated : (register st name email password now).1
        = .created (omitPassword (userObjFields
            { id := st.counter, name := name, email := jsToLower email,
              password := bcryptHash password, role := "user", isActive := true,
              createdAt := now, updatedAt := now, lastLogin := none,
              avatar := none }))
          (generateToken st.counter now) := by
      rw [register, hfree]
    exact ⟨_, _, hcreated, omitPassword_no_password _⟩
  · have hst2 : (register st name email password now).2.users
        = mapSet st.users (jsToLower email)
            { id := st.counter, name := name, email := jsToLower email,
              password := bcryptHash password, role := "user", isActive := true,
              createdAt := now, updatedAt := now, lastLogin := none, avatar := none } := by
      rw [register, hfree]
    have hfound : findUserByEmail (register st name email password now).2.users email
        = some { id := st.counter, name := name, email := jsToLower email,
                 password := bcryptHash password, role := "user", isActive := true,
                 createdAt := now, updatedAt := now, lastLogin := none,
                 avatar := none } := by
      rw [findUserByEmail, hst2]
      exact lookup_mapSet_fresh hfree
    have hsucc : (login (register st name email password now).2 email password now2).1
        = .success (omitPassword (userObjFields
            { id := st.counter, name := name, email := jsToLower email,
              password := bcryptHash password, role := "user", isActive := true,
              createdAt := now, updatedAt := now, lastLogin := some now2,
              avatar := none }))
          (generateToken st.counter now2) := by
      rw [login, hfound]
      simp [verifyPassword, bcryptCompare]
    exact ⟨_, _, hsucc, omitPassword_no_password _⟩

/-- The empty in-memory credential store (`userCounter` starts at 1). -/
def emptyAuthState : AuthState := { users := [], counter := 1 }

/-- C3 witness: register Ann on the empty store, then log in with the
same credentials. -/
theorem register_then_login_witness :
    (∃ fields tok, (register emptyAuthState "Ann" "Ann@X.com" "abc123" 5).1
        = .created fields tok ∧ ∀ kv ∈ fields, kv.1 ≠ "password")
    ∧ (∃ fields2 tok2,
        (login (register emptyAuthState "Ann" "Ann@X.com" "abc123" 5).2
            "Ann@X.com" "abc123" 6).1 = .success fields2 tok2
      ∧ ∀ kv ∈ fields2, kv.1 ≠ "password") :=
  register_then_login emptyAuthState "Ann" "Ann@X.com" "abc123" 5 6 rfl

/-- C4: if a registration succeeded, a second registration whose email
agrees with the first up to letter case answers the duplicate-email 400
and leaves the credential store exactly as it was. -/
theorem duplicate_email_rejected (st : AuthState)
    (name1 email1 pw1 name2 email2 pw2 : String) (now1 now2 : Nat)
    (fields : List (String × JsVal)) (tok : Token)
    (hcase : jsToLower email2 = jsToLower email1)
    (h1 : (register st name1 email1 pw1 now1).1 = .created fields tok) :
    register (register st name1 email1 pw1 now1).2 name2 email2 pw2 now2
      = (.duplicate, (register st name1 email1 pw1 now1).2) := by
  cases hfe : findUserByEmail st.users email1 with
  | some u =>
    rw [register, hfe] at h1
    simp at h1
  | none =>
    have hfound : findUserByEmail (register st name1 email1 pw1 now1).2.users email2
        = some { id := st.counter, name := name1, email := jsToLower email1,
                 password := bcryptHash pw1, role := "user", isActive := true,
                 createdAt := now1, updatedAt := now1, lastLogin := none,
                 avatar := none } := by
      rw [findUserByEmail, hcase]
      have hst2 : (register st name1 email1 pw1 now1).2.users
          = mapSet st.users (jsToLower email1)
              { id := st.counter, name := name1, email := jsToLower email1,
                password := bcryptHash pw1, role := "user", isActive := true,
                createdAt := now1, updatedAt := now1, lastLogin := none, avatar := none } := by
        rw [register, hfe]
      rw [hst2]
      exact lookup_mapSet_fresh hfe
    rw [register, hfound]

/-- C4 witness: registering Ann and then Bob with the same email up to
case; the second registration is rejected and changes nothing. -/
theorem duplicate_email_rejected_witness :
    register (register emptyAuthState "Ann" "Ann@X.com" "abc123" 5).2
        "Bob" "ann@x.COM" "zzz999" 6
      = (.duplicate, (register emptyAuthState "Ann" "Ann@X.com" "abc123" 5).2) :=
  duplicate_email_rejected emptyAuthState "Ann" "Ann@X.com" "abc123"
    "Bob" "ann@x.COM" "zzz999" 5 6 _ _ (by decide) rfl

/-- The update object of `PUT /api/users/profile`, built from the `name`
and `avatar` body fields only. -/
structure ProfileUpdate where
  name : Option String
  avatar : Option String
deriving Repr, DecidableEq

/-- The `updateProfileSchema` restriction that matters here: a Joi
object with keys `name` and `avatar` rejects every other key (the
per-field content checks are irrelevant to the frame property and are
not modelled).  Request bodies are association lists of string fields. -/
def validateProfileBody (body : List (String × String)) : Bool :=
  body.all (fun kv => kv.1 == "name" || kv.1 == "avatar")

/-- The handler code `const { name, avatar } = req.body` followed by the
two `if (x !== undefined) updateData.x = x` lines. -/
def extractProfileUpdate (body : List (String × String)) : ProfileUpdate :=
  { name := body.lookup "name", avatar := body.lookup "avatar" }

/-- `Object.assign(user, updateData, { updatedAt: new Date() })` for a
profile update object. -/
def applyProfileUpdate (u : User) (p : ProfileUpdate) (now : Nat) : User :=
  { u with
    name := p.name.getD u.name
    avatar := match p.avatar with | some a => some a | none => u.avatar
    updatedAt := now }

/-- The in-memory branch of `updateUser` in `backend/routes/users.js`:
walk the map entries and update the first user whose id matches. -/
def updateUserEntries (users : List (String × User)) (userId : Nat)
    (p : ProfileUpdate) (now : Nat) : List (String × User) :=
  match users with
  | [] => []
  | (k, u) :: rest =>
    if u.id == userId then (k, applyProfileUpdate u p now) :: rest
    else (k, u) :: updateUserEntries rest userId p now

/-- The store effect of the `PUT /api/users/profile` handler: validate
the body, build the update from the `name` and `avatar` fields only,
and apply it; an invalid body is rejected with 400 before any store
access. -/
def putProfileRoute (users : List (String × User)) (userId : Nat)
    (body : List (String × String)) (now : Nat) : List (String × User) :=
  if validateProfileBody body then
    updateUserEntries users userId (extractProfileUpdate body) now
  else users

/-- Entry-wise frame relation for a profile update: the key and every
stored field except `name`, `avatar` and `updatedAt` are unchanged, and
a changed `name` or `avatar` can only come from the request body. -/
def profileFrame (body : List (String × String)) (kv kv2 : String × User) : Prop :=
  kv2.1 = kv.1 ∧ kv2.2.id = kv.2.id ∧ kv2.2.email = kv.2.email
    ∧ kv2.2.role = kv.2.role ∧ kv2.2.password = kv.2.password
    ∧ kv2.2.isActive = kv.2.isActive ∧ kv2.2.createdAt = kv.2.createdAt
    ∧ kv2.2.lastLogin = kv.2.lastLogin
    ∧ (kv2.2.name = kv.2.name ∨ body.lookup "name" = some kv2.2.name)
    ∧ (kv2.2.avatar = kv.2.avatar ∨ body.lookup "avatar" = kv2.2.avatar)

theorem profileFrame_refl (body : List (String × String)) (kv : String × User) :
    profileFrame body kv kv :=
  ⟨rfl, rfl, rfl, rfl, rfl, rfl, rfl, rfl, Or.inl rfl, Or.inl rfl⟩

/-- C10: a validated profile update can change only the stored `name`,
`avatar` and `updatedAt` of the addressed user — email, role, password
hash, active flag, creation time and last login of every stored user
are untouched, and new name/avatar values come from the request body. -/
theorem profile_update_frame (users : List (String × User)) (userId : Nat)
    (body : List (String × String)) (now : Nat)
    (hv : validateProfileBody body = true) :
    List.Forall₂ (profileFrame body) users (putProfileRoute users userId body now) := by
  rw [putProfileRoute, if_pos hv]
  induction users with
  | nil => exact List.Forall₂.nil
  | cons kv rest ih =>
    cases kv with
    | mk k u =>
      rw [updateUserEntries]
      by_cases hid : (u.id == userId) = true
      · rw [if_pos hid]
        refine List.Forall₂.cons ?_ (List.forall₂_same.mpr (fun a _ => profileFrame_refl body a))
        refine ⟨rfl, rfl, rfl, rfl, rfl, rfl, rfl, rfl, ?_, ?_⟩
        · cases hn : (extractProfileUpdate body).name with
          | none =>
            left
            simp [applyProfileUpdate, hn]
          | some v =>
            right
            have hn2 : body.lookup "name" = some v := hn
            simp only [applyProfileUpdate, hn, Option.getD_some]
            exact hn2
        · cases ha : (extractProfileUpdate body).avatar with
          | none =>
            left
            simp [applyProfileUpdate, ha]
          | some v =>
            right
            have ha2 : body.lookup "avatar" = some v := ha
            simp only [applyProfileUpdate, ha]
            exact ha2
      · rw [if_neg hid]
        exact List.Forall₂.cons (profileFrame_refl body (k, u)) ih

/-- C10 witness: updating the profile of user 5 with a new name and
avatar in a two-user store. -/
theorem profile_update_frame_witness :
    List.Forall₂ (profileFrame [("name", "Alicia"), ("avatar", "http://x/a.png")])
      [("alice@x.com", aliceUser), ("bob@x.com", { aliceUser with id := 6, name := "Bob" })]
      (putProfileRoute
        [("alice@x.com", aliceUser), ("bob@x.com", { aliceUser with id := 6, name := "Bob" })]
        5 [("name", "Alicia"), ("avatar", "http://x/a.png")] 9) :=
  profile_update_frame
    [("alice@x.com", aliceUser), ("bob@x.com", { aliceUser with id := 6, name := "Bob" })]
    5 [("name", "Alicia"), ("avatar", "http://x/a.png")] 9 (by decide)

end TaskApp
